import Mathlib

set_option maxRecDepth 10000

/-!
Verification of the Standup_agent transcript-parsing core.

The definitions below are a shallow embedding of `src/Standup_agent/utils.py`
and `src/Standup_agent/tools.py`.  Python strings are modelled as `String` /
`List Char`; the regular expressions used by the source are embedded as
specialised scanners implementing the leftmost, first-alternative,
non-overlapping semantics of Python's `re` module for exactly the patterns
appearing in the source.  Python's ASCII character classes are used (the
transcripts the source handles are ASCII).
-/

namespace Standup

/-! ### Character classes (Python `re` ASCII semantics) -/

def isUpperA (c : Char) : Bool := 'A' ≤ c && c ≤ 'Z'

def isLowerA (c : Char) : Bool := 'a' ≤ c && c ≤ 'z'

def isDigitA (c : Char) : Bool := '0' ≤ c && c ≤ '9'

def isLetterA (c : Char) : Bool := isUpperA c || isLowerA c

def isWordA (c : Char) : Bool := isLetterA c || isDigitA c || c == '_'

def isSpaceA (c : Char) : Bool :=
  c == ' ' || c == '\t' || c == '\n' || c == '\r' || c == '\x0b' || c == '\x0c'

/-- Python `str.strip()` on a list of characters. -/
def pyStripL (s : List Char) : List Char :=
  (((s.dropWhile isSpaceA).reverse).dropWhile isSpaceA).reverse

/-- Python `str.strip()`. -/
def pyStrip (s : String) : String := String.mk (pyStripL s.toList)

/-- Python `str.split(sep)` for a one-character separator: split at every
occurrence, keeping empty pieces (`"a--b".split('-') == ['a','','b']`). -/
def splitOnChar (sep : Char) : List Char → List (List Char)
  | [] => [[]]
  | c :: rest =>
    if c == sep then [] :: splitOnChar sep rest
    else
      match splitOnChar sep rest with
      | [] => [[c]]
      | w :: ws => (c :: w) :: ws

def pySplit (s : String) (sep : Char) : List String :=
  (splitOnChar sep s.toList).map String.mk

/-- Case-insensitive literal match of `p` against a front part of `s`
(Python `re.IGNORECASE` on an alternation literal); returns the rest. -/
def ciPrefix : List Char → List Char → Option (List Char)
  | [], s => some s
  | _, [] => none
  | p :: ps, c :: cs => if p.toLower == c.toLower then ciPrefix ps cs else none

/-- Ordered alternation of case-insensitive literals, as in `(?:a|b|...)`:
the first alternative that matches wins. -/
def firstAltCI : List (List Char) → List Char → Option (List Char × List Char)
  | [], _ => none
  | a :: rest, s =>
    match ciPrefix a s with
    | some r => some (a, r)
    | none => firstAltCI rest s

/-! ### Pattern Extractor — `extract_ticket_keys` (utils.py 61-98)

Tier 1 regex: `\b([A-Z]{2,10}-\d+)\b`.  Since `-` is outside `[A-Z]`, a match
at a position exists iff the maximal uppercase run there has length 2..10,
is followed by `-` and a nonempty digit run, with word boundaries on both
sides; backtracking inside the quantifiers cannot produce any other match. -/

def atFullKey (s : List Char) : Option (List Char × List Char) :=
  let letters := s.takeWhile isUpperA
  if 2 ≤ letters.length && letters.length ≤ 10 then
    match s.drop letters.length with
    | '-' :: rest =>
      let ds := rest.takeWhile isDigitA
      if ds.isEmpty then none
      else
        let rest2 := rest.drop ds.length
        match rest2 with
        | [] => some (letters ++ '-' :: ds, [])
        | c :: _ => if isWordA c then none else some (letters ++ '-' :: ds, rest2)
    | _ => none
  else none

/-- `re.finditer` driver for tier 1: scan left to right, tracking whether the
previous character is a word character (for `\b`); on a match, resume after
it.  The fuel is the remaining length, enough since every step consumes at
least one character. -/
def scanFullKeysAux : Nat → Bool → List Char → List String
  | 0, _, _ => []
  | _ + 1, _, [] => []
  | fuel + 1, prevWord, c :: cs =>
    if !prevWord then
      match atFullKey (c :: cs) with
      | some (key, rest) => String.mk key :: scanFullKeysAux fuel true rest
      | none => scanFullKeysAux fuel (isWordA c) cs
    else scanFullKeysAux fuel (isWordA c) cs

def scanFullKeys (text : List Char) : List String :=
  scanFullKeysAux text.length false text

/-- Tier 2 regex: `(?:ticket|issue|bug|story)\s+(\d+)` with `re.IGNORECASE`;
returns the captured digit group.  The four keywords start with distinct
letters, and shrinking the greedy `\s+` lands on a whitespace character,
which is not a digit, so the scan is deterministic. -/
def partialKeywords : List (List Char) :=
  ["ticket".toList, "issue".toList, "bug".toList, "story".toList]

def atPartialNum (s : List Char) : Option (List Char × List Char) :=
  match firstAltCI partialKeywords s with
  | none => none
  | some (_, r1) =>
    let ws := r1.takeWhile isSpaceA
    if ws.isEmpty then none
    else
      let r2 := r1.drop ws.length
      let ds := r2.takeWhile isDigitA
      if ds.isEmpty then none else some (ds, r2.drop ds.length)

def scanPartialAux : Nat → List Char → List String
  | 0, _ => []
  | _ + 1, [] => []
  | fuel + 1, c :: cs =>
    match atPartialNum (c :: cs) with
    | some (ds, rest) => String.mk ds :: scanPartialAux fuel rest
    | none => scanPartialAux fuel cs

def scanPartial (text : List Char) : List String :=
  scanPartialAux text.length text

/-- Tier 3: the `SPOKEN_DIGITS` table of utils.py 32-35, in source order
(Python's ordered alternation `(?:zero|one|...|nine)` tries them in this
order; no word is a prefix of another, so at most one matches). -/
def digitWords : List (List Char × Char) :=
  [("zero".toList, '0'), ("one".toList, '1'), ("two".toList, '2'),
   ("three".toList, '3'), ("four".toList, '4'), ("five".toList, '5'),
   ("six".toList, '6'), ("seven".toList, '7'), ("eight".toList, '8'),
   ("nine".toList, '9')]

def firstDigitWordAux : List (List Char × Char) → List Char → Option (Char × List Char)
  | [], _ => none
  | (w, d) :: rest, s =>
    match ciPrefix w s with
    | some r => some (d, r)
    | none => firstDigitWordAux rest s

def firstDigitWord (s : List Char) : Option (Char × List Char) :=
  firstDigitWordAux digitWords s

/-- The greedy star `(?:\s+(zero|...|nine))*`: repeatedly consume whitespace
plus one digit word.  Shrinking the greedy `\s+` lands on whitespace, which
starts no digit word, so the star stops exactly when no word follows the
maximal whitespace run. -/
def spokenStar : Nat → List Char → (List Char × List Char)
  | 0, s => ([], s)
  | fuel + 1, s =>
    let ws := s.takeWhile isSpaceA
    if ws.isEmpty then ([], s)
    else
      match firstDigitWord (s.drop ws.length) with
      | none => ([], s)
      | some (d, r) =>
        let p := spokenStar fuel r
        (d :: p.1, p.2)

/-- Tier 3 regex at a position: `\b(zero|...|nine)(?:\s+(zero|...|nine))*`
(IGNORECASE, no trailing boundary); returns one digit character per matched
word, as produced by `match.group(0).split()` mapped through `SPOKEN_DIGITS`. -/
def atSpoken (s : List Char) : Option (List Char × List Char) :=
  match firstDigitWord s with
  | none => none
  | some (d, r) =>
    let p := spokenStar r.length r
    some (d :: p.1, p.2)

def scanSpokenAux : Nat → Bool → List Char → List String
  | 0, _, _ => []
  | _ + 1, _, [] => []
  | fuel + 1, prevWord, c :: cs =>
    if !prevWord then
      match atSpoken (c :: cs) with
      | some (ds, rest) => String.mk ds :: scanSpokenAux fuel true rest
      | none => scanSpokenAux fuel (isWordA c) cs
    else scanSpokenAux fuel (isWordA c) cs

def scanSpoken (text : List Char) : List String :=
  scanSpokenAux text.length false text

/-- A ticket mention, utils.py 68-72: `{'key': …, 'confidence': …, 'type': …}`. -/
structure TicketMention where
  key : String
  confidence : String
  type : String
deriving Repr, DecidableEq

/-- Tier 2 loop body (utils.py 76-83): synthesize
`{default_project}-{digits}` and append it, unless that key is already in
the accumulated list. -/
def partialStep (default_project : String) (acc : List TicketMention) (ds : String) :
    List TicketMention :=
  let key := default_project ++ "-" ++ ds
  if acc.any (fun t => t.key == key) then acc
  else acc ++ [{ key := key, confidence := "medium", type := "partial_numeric" }]

/-- Tier 3 loop body (utils.py 87-96): require at least three concatenated
digits, then append unless the key is already present. -/
def spokenStep (default_project : String) (acc : List TicketMention) (ds : String) :
    List TicketMention :=
  if ds.length ≥ 3 then
    let key := default_project ++ "-" ++ ds
    if acc.any (fun t => t.key == key) then acc
    else acc ++ [{ key := key, confidence := "low", type := "spoken_digits" }]
  else acc

/-- `extract_ticket_keys` (utils.py 61-98): three tiers appended in order;
tiers 2 and 3 skip a key already present in the accumulated list. -/
def extract_ticket_keys (text : String) (default_project : String) : List TicketMention :=
  let tickets1 := (scanFullKeys text.toList).map
    (fun k => { key := k, confidence := "high", type := "full_key" })
  let tickets2 := (scanPartial text.toList).foldl (partialStep default_project) tickets1
  let tickets3 := (scanSpoken text.toList).foldl (spokenStep default_project) tickets2
  tickets3

/-! ### Speaker Segmenter — `parse_speakers` (utils.py 101-120) -/

/-- The speaker-line regex `^([A-Z][a-zA-Z\s]+):\s*(.*)$` applied to
`line.strip()` (utils.py 109), with the source's `group(1).strip()` /
`group(2).strip()` post-processing (111-112).  `:` is outside the name's
character class, so the greedy run is the maximal run of letters and
whitespace after the initial capital, which must be immediately followed
by `:`.  Lines come from `text.split('\n')` and so contain no newline. -/
def speakerMatch (line : String) : Option (String × String) :=
  match pyStripL line.toList with
  | [] => none
  | c :: cs =>
    if isUpperA c then
      let run := cs.takeWhile (fun x => isLetterA x || isSpaceA x)
      if run.isEmpty then none
      else
        match cs.drop run.length with
        | ':' :: rest => some (pyStrip (String.mk (c :: run)), pyStrip (String.mk rest))
        | _ => none
    else none

/-- Append one utterance to an existing speaker entry
(`speakers[name].append(x)`); every call site has `name` registered. -/
def appendTo (m : List (String × List String)) (name x : String) :
    List (String × List String) :=
  m.map (fun p => if p.1 = name then (p.1, p.2 ++ [x]) else p)

/-- Register a speaker key if absent (`if current_speaker not in speakers`);
Python dicts keep insertion order, so a fresh key goes to the end. -/
def registerSpeaker (m : List (String × List String)) (name : String) :
    List (String × List String) :=
  if m.any (fun p => p.1 = name) then m else m ++ [(name, [])]

/-- One iteration of the line loop of `parse_speakers` (utils.py 107-118);
the state is the speakers mapping and `current_speaker`. -/
def psStep (st : List (String × List String) × Option String) (line : String) :
    List (String × List String) × Option String :=
  match speakerMatch line with
  | some (name, content) =>
    let m := registerSpeaker st.1 name
    let m := if content ≠ "" then appendTo m name content else m
    (m, some name)
  | none =>
    match st.2 with
    | some cur => if pyStrip line ≠ "" then (appendTo st.1 cur (pyStrip line), st.2) else st
    | none => st

/-- `parse_speakers` (utils.py 101-120). -/
def parse_speakers (text : String) : List (String × List String) :=
  ((pySplit text '\n').foldl psStep ([], none)).1

/-! Declarative segmentation, following the claim's words: each speaker line
opens a block consisting of its non-empty rest plus the trimmed non-blank
continuation lines up to the next speaker line; blank lines and lines seen
before any speaker line are discarded; a speaker's utterances are the
concatenation of its blocks in order. -/

def isSpeakerLine (l : String) : Bool := (speakerMatch l).isSome

/-- The trimmed non-blank continuation lines before the next speaker line. -/
def contBlock (ls : List String) : List String :=
  (ls.takeWhile (fun l => !isSpeakerLine l)).filterMap
    (fun l => if pyStrip l ≠ "" then some (pyStrip l) else none)

theorem length_dropWhile_le' (p : α → Bool) (l : List α) :
    (l.dropWhile p).length ≤ l.length := by
  induction l with
  | nil => simp [List.dropWhile]
  | cons a t ih =>
    by_cases h : p a = true
    · simp [List.dropWhile, h]; omega
    · simp [List.dropWhile, h]

/-- The blocks opened by the speaker lines, in transcript order. -/
def segBlocks : List String → List (String × List String)
  | [] => []
  | l :: ls =>
    match speakerMatch l with
    | some (name, content) =>
      (name, (if content ≠ "" then [content] else []) ++ contBlock ls)
        :: segBlocks (ls.dropWhile (fun x => !isSpeakerLine x))
    | none => segBlocks ls
termination_by ls => ls.length
decreasing_by
  · have := length_dropWhile_le' (fun x => !isSpeakerLine x) ls
    simp; omega
  · simp

/-- Append a list of utterances to a speaker's entry, in order. -/
def appendAll (m : List (String × List String)) (name : String) (xs : List String) :
    List (String × List String) :=
  xs.foldl (fun m x => appendTo m name x) m

/-- Merge blocks into the per-speaker mapping, first-seen key order. -/
def mergeBlocks (bs : List (String × List String))
    (m : List (String × List String)) : List (String × List String) :=
  bs.foldl (fun m b => appendAll (registerSpeaker m b.1) b.1 b.2) m

/-- The segmentation described by the spec sentence for C5. -/
def segment (text : String) : List (String × List String) :=
  mergeBlocks (segBlocks (pySplit text '\n')) []

/-! ### Date Resolver — `extract_date_from_transcript` (utils.py 123-140) -/

def monthAbbrevs : List String :=
  ["Jan", "Feb", "Mar", "Apr", "May", "Jun", "Jul", "Aug", "Sep", "Oct", "Nov", "Dec"]

def monthFulls : List String :=
  ["January", "February", "March", "April", "May", "June", "July", "August",
   "September", "October", "November", "December"]

/-- Pattern 1 at a position:
`(?:standup|meeting)\s+(?:for|on)\s+(\d{1,2}\s+(?:Jan|…|Dec)[a-z]*(?:\s+\d{4})?)`
with IGNORECASE; returns the captured group.  `\d{1,2}` can only succeed on a
maximal digit run of length 1 or 2 (a leftover digit is not whitespace), and
the greedy `[a-z]*` never backtracks because the optional year group can
match empty. -/
def matchPattern1At (s : List Char) : Option (List Char) :=
  match firstAltCI ["standup".toList, "meeting".toList] s with
  | none => none
  | some (_, r1) =>
    let ws1 := r1.takeWhile isSpaceA
    if ws1.isEmpty then none
    else
      match firstAltCI ["for".toList, "on".toList] (r1.drop ws1.length) with
      | none => none
      | some (_, r2) =>
        let ws2 := r2.takeWhile isSpaceA
        if ws2.isEmpty then none
        else
          let r3 := r2.drop ws2.length
          let ds := r3.takeWhile isDigitA
          if ds.length < 1 || 2 < ds.length then none
          else
            let r4 := r3.drop ds.length
            let ws3 := r4.takeWhile isSpaceA
            if ws3.isEmpty then none
            else
              match firstAltCI (monthAbbrevs.map String.toList) (r4.drop ws3.length) with
              | none => none
              | some (ab, r5) =>
                let tail := r5.takeWhile isLetterA
                let baseLen := ds.length + ws3.length + ab.length + tail.length
                let r6 := r5.drop tail.length
                let ws4 := r6.takeWhile isSpaceA
                let yr := (r6.drop ws4.length).takeWhile isDigitA
                if !ws4.isEmpty && 4 ≤ yr.length then
                  some (r3.take (baseLen + ws4.length + 4))
                else
                  some (r3.take baseLen)

/-- Pattern 2 at a position:
`(\d{1,2}\s+(?:January|…|December)\s+\d{4})` with IGNORECASE. -/
def matchPattern2At (s : List Char) : Option (List Char) :=
  let ds := s.takeWhile isDigitA
  if ds.length < 1 || 2 < ds.length then none
  else
    let r1 := s.drop ds.length
    let ws1 := r1.takeWhile isSpaceA
    if ws1.isEmpty then none
    else
      match firstAltCI (monthFulls.map String.toList) (r1.drop ws1.length) with
      | none => none
      | some (mf, r2) =>
        let ws2 := r2.takeWhile isSpaceA
        let yr := (r2.drop ws2.length).takeWhile isDigitA
        if !ws2.isEmpty && 4 ≤ yr.length then
          some (s.take (ds.length + ws1.length + mf.length + ws2.length + 4))
        else none

/-- `re.search`: the leftmost position where the pattern matches. -/
def searchAux (pat : List Char → Option (List Char)) : Nat → List Char → Option (List Char)
  | 0, _ => none
  | _ + 1, [] => none
  | fuel + 1, c :: cs =>
    match pat (c :: cs) with
    | some cap => some cap
    | none => searchAux pat fuel cs

def searchP1 (text : List Char) : Option (List Char) :=
  searchAux matchPattern1At (text.length + 1) text

def searchP2 (text : List Char) : Option (List Char) :=
  searchAux matchPattern2At (text.length + 1) text

/-- A calendar date as produced by the date parser. -/
structure PDate where
  day : Nat
  month : Nat
  year : Nat
deriving Repr, DecidableEq

/-- Python `str.split()` (split on whitespace runs, dropping empties). -/
def pySplitWSAux : Nat → List Char → List String
  | 0, _ => []
  | fuel + 1, s =>
    let s1 := s.dropWhile isSpaceA
    let w := s1.takeWhile (fun c => !isSpaceA c)
    if w.isEmpty then [] else String.mk w :: pySplitWSAux fuel (s1.drop w.length)

def pySplitWS (s : List Char) : List String := pySplitWSAux s.length s

def ciEq (a b : String) : Bool := a.toList.map Char.toLower == b.toList.map Char.toLower

/-- Month number (1-12) of a token the parser recognises: a full month name
or its three-letter abbreviation, case-insensitively. -/
def monthOf (w : String) : Option Nat :=
  match (List.range 12).find? (fun i =>
      ciEq w (monthAbbrevs.getD i "") || ciEq w (monthFulls.getD i "")) with
  | some i => some (i + 1)
  | none => none

def natOfDigits (ds : List Char) : Nat :=
  ds.foldl (fun n c => n * 10 + (c.toNat - '0'.toNat)) 0

def allDigits (s : String) : Bool := s.toList.all isDigitA

def daysInMonth (m y : Nat) : Nat :=
  if m = 2 then (if y % 4 = 0 && (y % 100 ≠ 0 || y % 400 = 0) then 29 else 28)
  else if m = 4 || m = 6 || m = 9 || m = 11 then 30 else 31

/-- Modelled from the spec: the general-purpose date parser
(`dateutil.parser.parse`, a third-party library not part of this
repository), restricted to the substrings the two capture groups can
produce — `"<day> <month-word>"` or `"<day> <month-word> <year>"`.  The
month word must be a recognised month name or abbreviation, the day must be
valid for the month, and a missing year is filled from the current date
(`nowYear`), as dateutil does with its default. -/
def dateutil_parse (nowYear : Nat) (s : String) : Option PDate :=
  match pySplitWS s.toList with
  | [d, m] =>
    match monthOf m with
    | some mo =>
      if allDigits d then
        let dn := natOfDigits d.toList
        if 1 ≤ dn && dn ≤ daysInMonth mo nowYear then some ⟨dn, mo, nowYear⟩ else none
      else none
    | none => none
  | [d, m, y] =>
    match monthOf m with
    | some mo =>
      if allDigits d && allDigits y then
        let dn := natOfDigits d.toList
        let yn := natOfDigits y.toList
        if 1 ≤ dn && dn ≤ daysInMonth mo yn && 1 ≤ yn then some ⟨dn, mo, yn⟩ else none
      else none
    | none => none
  | _ => none

/-- `extract_date_from_transcript` (utils.py 123-140): try pattern 1 then
pattern 2; a pattern's captured substring is parsed, a parse failure falls
through to the next pattern; `none` when no pattern matches or all parses
fail. -/
def extract_date_from_transcript (text : String) (nowYear : Nat) : Option PDate :=
  match searchP1 text.toList with
  | some cap =>
    match dateutil_parse nowYear (String.mk cap) with
    | some d => some d
    | none => (searchP2 text.toList).bind (fun c => dateutil_parse nowYear (String.mk c))
  | none => (searchP2 text.toList).bind (fun c => dateutil_parse nowYear (String.mk c))

/-! ### Context Aggregator — inside `parse_transcript` (tools.py 113-128) -/

/-- `sub in s` for Python strings (contiguous substring). -/
def substrB : List Char → List Char → Bool
  | p, [] => p.isEmpty
  | p, c :: t => p.isPrefixOf (c :: t) || substrB p t

def containsSub (s sub : String) : Bool := substrB sub.toList s.toList

/-- `ticket_key.split('-')[1]` (tools.py 126); keys produced by the
extractor always contain a `-`, so the index is in range there. -/
def keySuffix (key : String) : String :=
  String.mk ((splitOnChar '-' key.toList).getD 1 [])

/-- The list comprehension of tools.py 125-126: a line is kept if it contains
the key, or if the numeric suffix occurs in ANY line of the speaker's whole
list (the inner `any` shadows `line` and ranges over `lines`). -/
def relevant_lines (key : String) (lines : List String) : List String :=
  lines.filter (fun line =>
    containsSub line key || lines.any (fun l => containsSub l (keySuffix key)))

/-- The `speakers` sub-mapping of one ticket context (tools.py 124-128):
a speaker is added only when it has at least one relevant line. -/
def ticketContextSpeakers (key : String) (speakers : List (String × List String)) :
    List (String × List String) :=
  speakers.filterMap (fun p =>
    let rl := relevant_lines key p.2
    if rl.isEmpty then none else some (p.1, rl))

structure TicketContext where
  confidence : String
  type : String
  speakers : List (String × List String)
  mentions : List String
deriving Repr, DecidableEq

/-- Python dict assignment `ticket_contexts[ticket_key] = …`: replace in
place when the key exists, else append. -/
def insertOrReplace (m : List (String × TicketContext)) (k : String) (v : TicketContext) :
    List (String × TicketContext) :=
  if m.any (fun p => p.1 = k) then m.map (fun p => if p.1 = k then (k, v) else p)
  else m ++ [(k, v)]

/-- The ticket-context aggregation loop of `parse_transcript` (tools.py 113-128). -/
def ticket_contexts_of (tickets : List TicketMention)
    (speakers : List (String × List String)) : List (String × TicketContext) :=
  tickets.foldl (fun m t =>
    insertOrReplace m t.key
      { confidence := t.confidence, type := t.type,
        speakers := ticketContextSpeakers t.key speakers, mentions := [] }) []

/-- `strftime("%d %b %Y")` (tools.py 132). -/
def pad2 (n : Nat) : String := if n < 10 then "0" ++ toString n else toString n

def strftimeDBY (d : PDate) : String :=
  pad2 d.day ++ " " ++ monthAbbrevs.getD (d.month - 1) "" ++ " " ++ toString d.year

structure ParseTranscriptResult where
  status : String
  error_message : Option String := none
  date : String := ""
  tickets : List TicketMention := []
  speakers : List (String × List String) := []
  ticket_contexts : List (String × TicketContext) := []
  default_project : String := ""
deriving Repr, DecidableEq

/-- `parse_transcript` (tools.py 91-139).  `now` is the caller-supplied
current date in the Australia/Sydney timezone (`get_sydney_date()`); the
body is pure, so the boundary `except` is unreachable in the model. -/
def parse_transcript (transcript_text : String) (default_project : String)
    (now : PDate) : ParseTranscriptResult :=
  let extracted := extract_date_from_transcript transcript_text now.year
  let date_used := extracted.getD now
  let tickets := extract_ticket_keys transcript_text default_project
  let speakers := parse_speakers transcript_text
  { status := "success",
    date := strftimeDBY date_used,
    tickets := tickets,
    speakers := speakers,
    ticket_contexts := ticket_contexts_of tickets speakers,
    default_project := default_project }

/-! ### Comment Formatter — `generate_adf_comment` (utils.py 143-189) -/

/-- An Atlassian Document Format node: either a text run with marks, or a
block node with a type tag, numeric attributes and children. -/
inductive ADF where
  | text (s : String) (marks : List String)
  | node (ntype : String) (attrs : List (String × Nat)) (content : List ADF)

/-- The source's header text literal (utils.py 151) contains the bytes
`â€”` (mojibake of an em dash), reproduced here with escapes. -/
def adfHeaderText (date_str : String) : String :=
  "Standup Update â€” " ++ date_str

/-- The fixed disclaimer footer (utils.py 184). -/
def adfFooterText : String :=
  "Generated by Standup Agent based on meeting notes; verify accuracy before relying on this content. For discrepancies, contact your Product Owner."

def adfHeading (speaker : String) : ADF :=
  .node "heading" [("level", 3)] [.text speaker []]

def adfBulletList (points : List String) : ADF :=
  .node "bulletList" []
    (points.map (fun point => .node "listItem" [] [.node "paragraph" [] [.text point []]]))

def adfFooter : ADF :=
  .node "paragraph" [] [.text adfFooterText ["em"]]

/-- `generate_adf_comment` (utils.py 143-189): header paragraph, then for
each speaker (in mapping order) a level-3 heading and a bullet list, then
the italic footer; the `doc` node carries `version: 1`. -/
def generate_adf_comment (date_str : String)
    (speakers_data : List (String × List String)) : ADF :=
  .node "doc" [("version", 1)]
    (.node "paragraph" [] [.text (adfHeaderText date_str) ["strong"]]
      :: (speakers_data.foldl
            (fun acc p => acc ++ [adfHeading p.1, adfBulletList p.2]) [])
      ++ [adfFooter])

/-- The text runs of an ADF tree, in serialisation order. -/
def ADF.textNodes : ADF → List String
  | .text s _ => [s]
  | .node _ _ content => textNodesList content
where textNodesList : List ADF → List String
  | [] => []
  | a :: rest => a.textNodes ++ textNodesList rest

/-- Concatenated serialised text content. -/
def ADF.textConcat (a : ADF) : String := String.join a.textNodes

/-- Number of occurrences of `p` as a contiguous substring (at distinct
start positions). -/
def countSubAux : List Char → List Char → Nat
  | p, [] => if p.isEmpty then 1 else 0
  | p, c :: t => (if p.isPrefixOf (c :: t) then 1 else 0) + countSubAux p t

def countSub (s p : String) : Nat := countSubAux p.toList s.toList

/-! ### Credential Cache — `get_jira_auth` (tools.py 142-166) and
`get_jira_cloud_id` (utils.py 256-285)

`tool_context.state` is the session key-value store; external outcomes
(the OAuth exchange, the accessible-resources fetch) are supplied as
`Except`-valued oracles: `.error` is a raised exception, `.ok none` is
"no credential" / "non-200 or empty resources", and `.ok (some v)` is a
successful value. -/

def JIRA_TOKEN_CACHE_KEY : String := "standup_agent_jira_token"

def JIRA_CLOUD_ID_KEY : String := JIRA_TOKEN_CACHE_KEY ++ "_cloud_id"

abbrev JState := List (String × String)

/-- `state.get(key)` on the session dictionary (keys are unique). -/
def lookupState : JState → String → Option String
  | [], _ => none
  | p :: t, k => if p.1 = k then some p.2 else lookupState t k

/-- Python dict assignment on the session state: replace in place when the
key exists, append at the end otherwise. -/
def setState : JState → String → String → JState
  | [], k, v => [(k, v)]
  | p :: t, k, v => if p.1 = k then (k, v) :: t else p :: setState t k v

/-- Python truthiness of `state.get(key)`: `None` and `""` are falsy. -/
def truthy : Option String → Bool
  | none => false
  | some s => s ≠ ""

structure AuthResult where
  token : Option String
  state : JState
  exchanged : Bool
  requested : Bool
deriving Repr, DecidableEq

/-- `get_jira_auth` (tools.py 142-166).  `exchange` is the outcome of
`tool_context.get_auth_response`; `exchanged` / `requested` record whether
`get_auth_response` / `request_credential` were invoked. -/
def get_jira_auth (exchange : Except String (Option String)) (st : JState) :
    Except String AuthResult :=
  let cached := lookupState st JIRA_TOKEN_CACHE_KEY
  if truthy cached then .ok ⟨cached, st, false, false⟩
  else
    match exchange with
    | .error e => .error e
    | .ok none => .ok ⟨none, st, true, true⟩
    | .ok (some tok) => .ok ⟨some tok, setState st JIRA_TOKEN_CACHE_KEY tok, true, false⟩

structure CloudResult where
  cloudId : Option String
  state : JState
  fetches : Nat
deriving Repr, DecidableEq

/-- `get_jira_cloud_id` (utils.py 256-285).  `fetch` is the outcome of the
accessible-resources request: `.ok none` covers a non-200 status or an
empty resource list (both return `None` without caching); `fetches` counts
provider requests made by this call. -/
def get_jira_cloud_id (fetch : Except String (Option String)) (st : JState) :
    Except String CloudResult :=
  let cached := lookupState st JIRA_CLOUD_ID_KEY
  if truthy cached then .ok ⟨cached, st, 0⟩
  else
    match fetch with
    | .error e => .error e
    | .ok none => .ok ⟨none, st, 1⟩
    | .ok (some cid) => .ok ⟨some cid, setState st JIRA_CLOUD_ID_KEY cid, 1⟩

/-! ### Public operations (tools.py) — the tri-state result contract

External calls are supplied as oracles; `.error e` models a raised
exception with message `str(e)`, which each public operation's boundary
`try/except` converts to an error-status result. -/

structure CalEvent where
  id : String
  summary : Option String
  start : String
  hangoutLink : Option String
deriving Repr, DecidableEq

structure NotesDoc where
  id : String
  name : String
  link : String
deriving Repr, DecidableEq

structure GoogleEnv where
  /-- `get_authenticated_google_services`: raise, `None` (awaiting auth), or services. -/
  services : Except String Bool
  /-- `cal_service.events().list(...).execute()`. -/
  eventsList : Except String (List CalEvent)
  /-- `cal_service.events().get(...).execute()` by event id. -/
  getEvent : String → Except String CalEvent
  /-- `check_for_transcript_and_recording` per event: catches internally
  (utils.py 237-238), so it never raises; only the `notes` slot is ever
  populated (utils.py 246-253). -/
  notes : String → Option NotesDoc
  /-- `read_document_content`: catches internally (utils.py 215-216). -/
  readDoc : String → String

structure EventInfo where
  id : String
  summary : String
  start : String
  has_meet : Bool
  notes_id : Option String := none
  notes_link : Option String := none
deriving Repr, DecidableEq

structure FetchEventsResult where
  status : String
  message : Option String := none
  error_message : Option String := none
  events : List EventInfo := []
  count : Nat := 0
deriving Repr, DecidableEq

/-- The per-event body of the loop in `fetch_calendar_events` (tools.py 53-80). -/
def processEvent (env : GoogleEnv) (only_with_notes : Bool) (acc : List EventInfo)
    (e : CalEvent) : List EventInfo :=
  let info : EventInfo :=
    { id := e.id, summary := e.summary.getD "No Title", start := e.start,
      has_meet := e.hangoutLink.isSome }
  match only_with_notes, e.hangoutLink with
  | true, some _ =>
    match env.notes e.id with
    | some nd => acc ++ [{ info with notes_id := some nd.id, notes_link := some nd.link }]
    | none => acc
  | true, none => acc
  | false, _ => acc ++ [info]

/-- Body of `fetch_calendar_events` (tools.py 14-88), inside the `try`. -/
def fetch_calendar_events_body (env : GoogleEnv) (only_with_notes : Bool) :
    Except String FetchEventsResult :=
  match env.services with
  | .error e => .error e
  | .ok false => .ok { status := "pending", message := some "Awaiting Google authentication" }
  | .ok true =>
    match env.eventsList with
    | .error e => .error e
    | .ok evs =>
      let result_events := evs.foldl (processEvent env only_with_notes) []
      .ok { status := "success", events := result_events, count := result_events.length }

def fetch_calendar_events (env : GoogleEnv) (only_with_notes : Bool) : FetchEventsResult :=
  match fetch_calendar_events_body env only_with_notes with
  | .ok r => r
  | .error e => { status := "error", error_message := some e }

structure MeetingNotesResult where
  status : String
  message : Option String := none
  error_message : Option String := none
  event_name : Option String := none
  event_time : Option String := none
  notes_content : Option String := none
  notes_link : Option String := none
deriving Repr, DecidableEq

/-- Body of `get_meeting_notes` (tools.py 334-392), inside the `try`. -/
def get_meeting_notes_body (env : GoogleEnv) (event_id : String) :
    Except String MeetingNotesResult :=
  match env.services with
  | .error e => .error e
  | .ok false => .ok { status := "pending", message := some "Awaiting Google authentication" }
  | .ok true =>
    match env.getEvent event_id with
    | .error e => .error e
    | .ok ev =>
      match ev.hangoutLink with
      | none => .ok { status := "error",
                      error_message := some "No Google Meet link found for this event" }
      | some _ =>
        match env.notes event_id with
        | none => .ok { status := "error",
                        error_message := some "No notes or transcript found for this meeting" }
        | some nd =>
          .ok { status := "success", event_name := some (ev.summary.getD "No Title"),
                event_time := some ev.start, notes_content := some (env.readDoc nd.id),
                notes_link := some nd.link }

def get_meeting_notes (env : GoogleEnv) (event_id : String) : MeetingNotesResult :=
  match get_meeting_notes_body env event_id with
  | .ok r => r
  | .error e => { status := "error", error_message := some e }

inductive IssueOutcome where
  /-- HTTP 200 with the fields read at tools.py 210-212. -/
  | found (statusName assignee summary : String)
  /-- Non-200 HTTP status. -/
  | httpErr (code : Nat)
deriving Repr, DecidableEq

structure JiraEnv where
  /-- `tool_context.get_auth_response` outcome for `get_jira_auth`. -/
  exchange : Except String (Option String)
  /-- Accessible-resources outcome for `get_jira_cloud_id`. -/
  fetchCloud : Except String (Option String)
  /-- `requests.get` on an issue, per ticket key. -/
  issue : String → Except String IssueOutcome
  /-- `requests.post` of the comment: HTTP status code and response text. -/
  post : Except String (Nat × String)

structure TicketCheck where
  key : String
  valid : Bool
  status : Option String := none
  assignee : Option String := none
  summary : Option String := none
  error : Option String := none
deriving Repr, DecidableEq

structure ValidateResult where
  status : String
  message : Option String := none
  error_message : Option String := none
  results : List TicketCheck := []
deriving Repr, DecidableEq

/-- The inner per-ticket `try/except` of `validate_jira_tickets`
(tools.py 200-225): one failing ticket becomes a per-item error entry. -/
def checkTicket (env : JiraEnv) (key : String) : TicketCheck :=
  match env.issue key with
  | .error e => { key := key, valid := false, error := some e }
  | .ok (.found st asg sm) =>
    { key := key, valid := true, status := some st, assignee := some asg, summary := some sm }
  | .ok (.httpErr code) =>
    { key := key, valid := false, error := some ("HTTP " ++ toString code) }

/-- Body of `validate_jira_tickets` (tools.py 169-229), inside the outer `try`. -/
def validate_jira_tickets_body (env : JiraEnv) (keys : List String) (st : JState) :
    Except String ValidateResult :=
  match get_jira_auth env.exchange st with
  | .error e => .error e
  | .ok ar =>
    match ar.token with
    | none => .ok { status := "pending", message := some "Awaiting Jira authentication" }
    | some _ =>
      match get_jira_cloud_id env.fetchCloud ar.state with
      | .error e => .error e
      | .ok cr =>
        match cr.cloudId with
        | none => .ok { status := "error", error_message := some "Failed to get Jira cloud ID" }
        | some _ => .ok { status := "success", results := keys.map (checkTicket env) }

def validate_jira_tickets (env : JiraEnv) (keys : List String) (st : JState) : ValidateResult :=
  match validate_jira_tickets_body env keys st with
  | .ok r => r
  | .error e => { status := "error", error_message := some e }

def JIRA_SITE_URL : String := "wow-sandbox2.atlassian.net"

structure PostResult where
  status : String
  message : Option String := none
  error_message : Option String := none
  ticket_key : Option String := none
  link : Option String := none
deriving Repr, DecidableEq

/-- Body of `post_jira_comment` (tools.py 281-331), inside the `try`. -/
def post_jira_comment_body (env : JiraEnv) (ticket_key : String) (st : JState) :
    Except String PostResult :=
  match get_jira_auth env.exchange st with
  | .error e => .error e
  | .ok ar =>
    match ar.token with
    | none => .ok { status := "pending", message := some "Awaiting Jira authentication" }
    | some _ =>
      match get_jira_cloud_id env.fetchCloud ar.state with
      | .error e => .error e
      | .ok cr =>
        match cr.cloudId with
        | none => .ok { status := "error", error_message := some "Failed to get Jira cloud ID" }
        | some _ =>
          match env.post with
          | .error e => .error e
          | .ok (code, body) =>
            if code = 200 || code = 201 then
              .ok { status := "success", ticket_key := some ticket_key,
                    link := some ("https://" ++ JIRA_SITE_URL ++ "/browse/" ++ ticket_key) }
            else
              .ok { status := "error", ticket_key := some ticket_key,
                    error_message := some ("HTTP " ++ toString code ++ ": " ++ body) }

def post_jira_comment (env : JiraEnv) (ticket_key : String) (st : JState) : PostResult :=
  match post_jira_comment_body env ticket_key st with
  | .ok r => r
  | .error e => { status := "error", error_message := some e }

structure TicketInfo where
  status : Option String := none
  assignee : Option String := none
  summary : Option String := none
deriving Repr, DecidableEq

structure GenCommentResult where
  status : String
  error_message : Option String := none
  ticket_key : Option String := none
  adf : Option ADF := none
  preview : Option String := none
  ticket_status : Option String := none
  ticket_assignee : Option String := none
  ticket_summary : Option String := none

/-- The plain-text preview footer (tools.py 261) — unlike the ADF footer it
omits the "For discrepancies" sentence. -/
def previewFooterText : String :=
  "Generated by Standup Agent based on meeting notes; verify accuracy before relying on this content."

/-- `generate_jira_comment` (tools.py 232-278); pure, so the boundary
`except` is unreachable in the model.  The preview header uses a real em
dash (tools.py 255), the bullets the `•` character (tools.py 259). -/
def generate_jira_comment (ticket_key : String) (ticket_context : TicketContext)
    (date_str : String) (ticket_info : Option TicketInfo) : GenCommentResult :=
  let speakers_data := ticket_context.speakers
  let adf := generate_adf_comment date_str speakers_data
  let preview_lines :=
    ["Standup Update — " ++ date_str, ""]
      ++ (speakers_data.foldl
            (fun acc p => acc ++ [p.1] ++ p.2.map (fun point => "• " ++ point) ++ [""]) [])
      ++ [previewFooterText]
  let base : GenCommentResult :=
    { status := "success", ticket_key := some ticket_key, adf := some adf,
      preview := some (String.intercalate "\n" preview_lines) }
  match ticket_info with
  | none => base
  | some info =>
    { base with ticket_status := info.status, ticket_assignee := info.assignee,
                ticket_summary := info.summary }

/-- `process_manual_transcript` (tools.py 395-405): delegates to
`parse_transcript`. -/
def process_manual_transcript (transcript_text : String) (default_project : String)
    (now : PDate) : ParseTranscriptResult :=
  parse_transcript transcript_text default_project now

/-! ## Lemmas about the extraction tiers -/

theorem partialStep_cases (dp : String) (acc : List TicketMention) (ds : String) :
    partialStep dp acc ds = acc ∨
    ∃ x : TicketMention, partialStep dp acc ds = acc ++ [x] ∧
      x.type = "partial_numeric" ∧ x.confidence = "medium" ∧
      x.key = dp ++ "-" ++ ds ∧ ∀ t ∈ acc, t.key ≠ x.key := by
  unfold partialStep
  by_cases h : acc.any (fun t => t.key == dp ++ "-" ++ ds)
  · left; simp [h]
  · right
    refine ⟨{ key := dp ++ "-" ++ ds, confidence := "medium", type := "partial_numeric" },
      by simp [h], rfl, rfl, rfl, ?_⟩
    intro t ht
    simp only [List.any_eq_true, beq_iff_eq, not_exists, not_and] at h
    exact h t ht

theorem spokenStep_cases (dp : String) (acc : List TicketMention) (ds : String) :
    spokenStep dp acc ds = acc ∨
    ∃ x : TicketMention, spokenStep dp acc ds = acc ++ [x] ∧
      x.type = "spoken_digits" ∧ x.confidence = "low" ∧
      x.key = dp ++ "-" ++ ds ∧ 3 ≤ ds.length ∧ ∀ t ∈ acc, t.key ≠ x.key := by
  unfold spokenStep
  by_cases hlen : ds.length ≥ 3
  · by_cases h : acc.any (fun t => t.key == dp ++ "-" ++ ds)
    · left; simp [h, hlen]
    · right
      refine ⟨{ key := dp ++ "-" ++ ds, confidence := "low", type := "spoken_digits" },
        by simp [h, hlen], rfl, rfl, rfl, hlen, ?_⟩
      intro t ht
      simp only [List.any_eq_true, beq_iff_eq, not_exists, not_and] at h
      exact h t ht
  · left; simp [hlen]

theorem foldl_partialStep_decomp (dp : String) (ms : List String) :
    ∀ acc : List TicketMention, ∃ Δ : List TicketMention,
      ms.foldl (partialStep dp) acc = acc ++ Δ ∧
      ∀ m ∈ Δ, m.type = "partial_numeric" ∧ m.confidence = "medium" ∧
        (∃ ds, m.key = dp ++ "-" ++ ds) ∧ m.key ∉ acc.map (fun t => t.key) := by
  induction ms with
  | nil => exact fun acc => ⟨[], by simp, by simp⟩
  | cons d ms ih =>
    intro acc
    obtain ⟨Δ, hΔ, hprops⟩ := ih (partialStep dp acc d)
    rcases partialStep_cases dp acc d with h | ⟨x, hx, hxt, hxc, hxk, hxfresh⟩
    · refine ⟨Δ, ?_, ?_⟩
      · rw [List.foldl_cons, hΔ, h]
      · intro m hm
        obtain ⟨h1, h2, h3, h4⟩ := hprops m hm
        rw [h] at h4
        exact ⟨h1, h2, h3, h4⟩
    · refine ⟨x :: Δ, ?_, ?_⟩
      · rw [List.foldl_cons, hΔ, hx, List.append_assoc, List.singleton_append]
      · intro m hm
        rcases List.mem_cons.mp hm with rfl | hm
        · refine ⟨hxt, hxc, ⟨d, hxk⟩, ?_⟩
          intro hmem
          obtain ⟨t, ht, hkey⟩ := List.mem_map.mp hmem
          exact hxfresh t ht hkey
        · obtain ⟨h1, h2, h3, h4⟩ := hprops m hm
          rw [hx] at h4
          exact ⟨h1, h2, h3, fun hc => h4 (by simp only [List.map_append] at *; exact List.mem_append_left _ hc)⟩

theorem foldl_spokenStep_decomp (dp : String) (ms : List String) :
    ∀ acc : List TicketMention, ∃ Δ : List TicketMention,
      ms.foldl (spokenStep dp) acc = acc ++ Δ ∧
      ∀ m ∈ Δ, m.type = "spoken_digits" ∧ m.confidence = "low" ∧
        (∃ ds, 3 ≤ ds.length ∧ m.key = dp ++ "-" ++ ds) ∧
        m.key ∉ acc.map (fun t => t.key) := by
  induction ms with
  | nil => exact fun acc => ⟨[], by simp, by simp⟩
  | cons d ms ih =>
    intro acc
    obtain ⟨Δ, hΔ, hprops⟩ := ih (spokenStep dp acc d)
    rcases spokenStep_cases dp acc d with h | ⟨x, hx, hxt, hxc, hxk, hxlen, hxfresh⟩
    · refine ⟨Δ, ?_, ?_⟩
      · rw [List.foldl_cons, hΔ, h]
      · intro m hm
        obtain ⟨h1, h2, h3, h4⟩ := hprops m hm
        rw [h] at h4
        exact ⟨h1, h2, h3, h4⟩
    · refine ⟨x :: Δ, ?_, ?_⟩
      · rw [List.foldl_cons, hΔ, hx, List.append_assoc, List.singleton_append]
      · intro m hm
        rcases List.mem_cons.mp hm with rfl | hm
        · refine ⟨hxt, hxc, ⟨d, hxlen, hxk⟩, ?_⟩
          intro hmem
          obtain ⟨t, ht, hkey⟩ := List.mem_map.mp hmem
          exact hxfresh t ht hkey
        · obtain ⟨h1, h2, h3, h4⟩ := hprops m hm
          rw [hx] at h4
          exact ⟨h1, h2, h3, fun hc => h4 (by simp only [List.map_append] at *; exact List.mem_append_left _ hc)⟩

/-- All tier-1 mentions carry type `full_key`. -/
theorem tier1_types (text : String) (m : TicketMention)
    (hm : m ∈ (scanFullKeys text.toList).map
      (fun k => ({ key := k, confidence := "high", type := "full_key" } : TicketMention))) :
    m.type = "full_key" ∧ m.confidence = "high" := by
  obtain ⟨k, _, rfl⟩ := List.mem_map.mp hm
  exact ⟨rfl, rfl⟩

/-- "A later synthetic-tier mention never repeats an earlier key". -/
def keyFresh (a b : TicketMention) : Prop := b.type ≠ "full_key" → a.key ≠ b.key

theorem pairwise_keyFresh_of_full (l : List TicketMention)
    (h : ∀ m ∈ l, m.type = "full_key") : l.Pairwise keyFresh := by
  induction l with
  | nil => exact List.Pairwise.nil
  | cons a t ih =>
    refine List.Pairwise.cons ?_ (ih fun m hm => h m (List.mem_cons_of_mem _ hm))
    intro b hb hbt
    exact absurd (h b (List.mem_cons_of_mem _ hb)) hbt

theorem partialStep_pairwise (dp : String) (acc : List TicketMention) (ds : String)
    (h : acc.Pairwise keyFresh) : (partialStep dp acc ds).Pairwise keyFresh := by
  rcases partialStep_cases dp acc ds with he | ⟨x, hx, _, _, _, hxfresh⟩
  · rwa [he]
  · rw [hx, List.pairwise_append]
    exact ⟨h, List.pairwise_singleton _ _, fun a ha b hb => by
      rcases List.mem_singleton.mp hb with rfl
      exact fun _ => hxfresh a ha⟩

theorem spokenStep_pairwise (dp : String) (acc : List TicketMention) (ds : String)
    (h : acc.Pairwise keyFresh) : (spokenStep dp acc ds).Pairwise keyFresh := by
  rcases spokenStep_cases dp acc ds with he | ⟨x, hx, _, _, _, _, hxfresh⟩
  · rwa [he]
  · rw [hx, List.pairwise_append]
    exact ⟨h, List.pairwise_singleton _ _, fun a ha b hb => by
      rcases List.mem_singleton.mp hb with rfl
      exact fun _ => hxfresh a ha⟩

theorem foldl_pairwise (step : List TicketMention → String → List TicketMention)
    (hstep : ∀ acc ds, acc.Pairwise keyFresh → (step acc ds).Pairwise keyFresh)
    (ms : List String) :
    ∀ acc, acc.Pairwise keyFresh → (ms.foldl step acc).Pairwise keyFresh := by
  induction ms with
  | nil => exact fun acc h => h
  | cons d ms ih => exact fun acc h => ih (step acc d) (hstep acc d h)

theorem extract_pairwise (text dp : String) :
    (extract_ticket_keys text dp).Pairwise keyFresh := by
  unfold extract_ticket_keys
  apply foldl_pairwise _ (spokenStep_pairwise dp) _
  apply foldl_pairwise _ (partialStep_pairwise dp) _
  exact pairwise_keyFresh_of_full _ (fun m hm => (tier1_types text m hm).1)

theorem extract_ticket_keys_eq (text dp : String) :
    extract_ticket_keys text dp =
      (scanSpoken text.toList).foldl (spokenStep dp)
        ((scanPartial text.toList).foldl (partialStep dp)
          ((scanFullKeys text.toList).map
            (fun k => { key := k, confidence := "high", type := "full_key" }))) := rfl

/-! ## Claim theorems for the Pattern Extractor -/

/-- C1 counterexample: the extraction pass is NOT key-unique — the full-key
tier emits one mention per literal match, so a key written twice yields two
mentions with the same key in one pass. -/
theorem extract_not_key_unique :
    ¬ ((extract_ticket_keys "ABC-123 ABC-123" "WJR").map (fun t => t.key)).Nodup := by
  decide

/-- C1 (amended): mentions appear in fixed tier-precedence order (all
full_key first, then partial_numeric, then spoken_digits), and a synthetic
mention (type ≠ full_key) never repeats the key of any earlier mention; the
full-key tier itself may repeat a key, once per literal match. -/
theorem extract_tier_precedence_and_dedup (text dp : String) :
    (∃ l1 l2 l3, extract_ticket_keys text dp = l1 ++ l2 ++ l3
       ∧ (∀ m ∈ l1, m.type = "full_key")
       ∧ (∀ m ∈ l2, m.type = "partial_numeric")
       ∧ (∀ m ∈ l3, m.type = "spoken_digits"))
  ∧ ∀ (i j : Fin (extract_ticket_keys text dp).length), i < j →
      ((extract_ticket_keys text dp).get j).type ≠ "full_key" →
      ((extract_ticket_keys text dp).get i).key ≠
        ((extract_ticket_keys text dp).get j).key := by
  constructor
  · rw [extract_ticket_keys_eq]
    obtain ⟨Δ2, h2, hp2⟩ := foldl_partialStep_decomp dp (scanPartial text.toList)
      ((scanFullKeys text.toList).map
        (fun k => { key := k, confidence := "high", type := "full_key" }))
    obtain ⟨Δ3, h3, hp3⟩ := foldl_spokenStep_decomp dp (scanSpoken text.toList)
      ((scanPartial text.toList).foldl (partialStep dp)
        ((scanFullKeys text.toList).map
          (fun k => { key := k, confidence := "high", type := "full_key" })))
    refine ⟨_, Δ2, Δ3, ?_, fun m hm => (tier1_types text m hm).1,
      fun m hm => (hp2 m hm).1, fun m hm => (hp3 m hm).1⟩
    rw [h3, h2, List.append_assoc]
  · intro i j hij hjt
    exact List.pairwise_iff_get.mp (extract_pairwise text dp) i j hij hjt

theorem extract_tier_precedence_and_dedup_witness :
    ((extract_ticket_keys "ABC-123 ticket 5" "WJR").get ⟨0, by decide⟩).key ≠
      ((extract_ticket_keys "ABC-123 ticket 5" "WJR").get ⟨1, by decide⟩).key :=
  (extract_tier_precedence_and_dedup "ABC-123 ticket 5" "WJR").2
    ⟨0, by decide⟩ ⟨1, by decide⟩ (by decide) (by decide)

/-- C2: the full-key tier emits one high-confidence mention per literal
regex match — the full_key mentions of an extraction are exactly the match
list of the tier-1 scan, in order — and on
"Let's discuss ABC-123 and ABC-123 again" that is two mentions of
"ABC-123", duplicates preserved. -/
theorem full_key_tier_per_match :
    (∀ text dp, (extract_ticket_keys text dp).filter (fun t => t.type == "full_key")
       = (scanFullKeys text.toList).map
           (fun k => { key := k, confidence := "high", type := "full_key" }))
  ∧ extract_ticket_keys "Let\x27s discuss ABC-123 and ABC-123 again" "WJR"
      = [{ key := "ABC-123", confidence := "high", type := "full_key" },
         { key := "ABC-123", confidence := "high", type := "full_key" }] := by
  constructor
  · intro text dp
    rw [extract_ticket_keys_eq]
    obtain ⟨Δ2, h2, hp2⟩ := foldl_partialStep_decomp dp (scanPartial text.toList)
      ((scanFullKeys text.toList).map
        (fun k => { key := k, confidence := "high", type := "full_key" }))
    obtain ⟨Δ3, h3, hp3⟩ := foldl_spokenStep_decomp dp (scanSpoken text.toList)
      ((scanPartial text.toList).foldl (partialStep dp)
        ((scanFullKeys text.toList).map
          (fun k => { key := k, confidence := "high", type := "full_key" })))
    rw [h3, h2, List.filter_append, List.filter_append]
    have e1 : ((scanFullKeys text.toList).map
        (fun k => ({ key := k, confidence := "high", type := "full_key" } : TicketMention))).filter
          (fun t => t.type == "full_key")
        = (scanFullKeys text.toList).map
            (fun k => { key := k, confidence := "high", type := "full_key" }) := by
      apply List.filter_eq_self.mpr
      intro m hm
      simp [(tier1_types text m hm).1]
    have e2 : Δ2.filter (fun t => t.type == "full_key") = [] := by
      apply List.filter_eq_nil_iff.mpr
      intro m hm
      simp [(hp2 m hm).1]
    have e3 : Δ3.filter (fun t => t.type == "full_key") = [] := by
      apply List.filter_eq_nil_iff.mpr
      intro m hm
      simp [(hp3 m hm).1]
    rw [e1, e2, e3, List.append_nil, List.append_nil]
  · decide

/-- C4: a spoken-digits mention is emitted only for a run of at least three
concatenated digits, with the synthesized key `{default_project}-{digits}`
and a key not already emitted by the earlier tiers; a 1- or 2-digit run
produces nothing.  Concretely, "issue four five six" yields exactly the
low-confidence mention WJR-456 and "issue four five" yields no mention. -/
theorem spoken_digits_tier_conditions :
    (∀ text dp, ∃ pre Δ, extract_ticket_keys text dp = pre ++ Δ
        ∧ (∀ m ∈ pre, m.type ≠ "spoken_digits")
        ∧ ∀ m ∈ Δ, m.type = "spoken_digits" ∧ m.confidence = "low"
            ∧ (∃ ds, 3 ≤ ds.length ∧ m.key = dp ++ "-" ++ ds)
            ∧ m.key ∉ pre.map (fun t => t.key))
  ∧ extract_ticket_keys "issue four five six" "WJR"
      = [{ key := "WJR-456", confidence := "low", type := "spoken_digits" }]
  ∧ extract_ticket_keys "issue four five" "WJR" = [] := by
  refine ⟨?_, by decide, by decide⟩
  intro text dp
  rw [extract_ticket_keys_eq]
  obtain ⟨Δ2, h2, hp2⟩ := foldl_partialStep_decomp dp (scanPartial text.toList)
    ((scanFullKeys text.toList).map
      (fun k => { key := k, confidence := "high", type := "full_key" }))
  obtain ⟨Δ3, h3, hp3⟩ := foldl_spokenStep_decomp dp (scanSpoken text.toList)
    ((scanPartial text.toList).foldl (partialStep dp)
      ((scanFullKeys text.toList).map
        (fun k => { key := k, confidence := "high", type := "full_key" })))
  refine ⟨_, Δ3, h3, ?_, hp3⟩
  intro m hm
  rw [h2] at hm
  rcases List.mem_append.mp hm with h | h
  · rw [(tier1_types text m h).1]; decide
  · rw [(hp2 m h).1]; decide

/-- C10: the spoken-digits pattern has no trailing word-boundary anchor, so
"nine" matches as a prefix of "nineteen": extract("one two nineteen","WJR")
emits the single low-confidence mention WJR-129. -/
theorem spoken_digits_prefix_of_longer_word :
    extract_ticket_keys "one two nineteen" "WJR"
      = [{ key := "WJR-129", confidence := "low", type := "spoken_digits" }] := by
  decide

/-! ## Claim theorem for the Context Aggregator (C3) -/

theorem nodup_keys_mem_unique {α : Type} (m : List (String × α))
    (hnd : (m.map (fun p => p.1)).Nodup) {k : String} {a b : α}
    (ha : (k, a) ∈ m) (hb : (k, b) ∈ m) : a = b := by
  induction m with
  | nil => cases ha
  | cons p t ih =>
    rw [List.map_cons, List.nodup_cons] at hnd
    rcases List.mem_cons.mp ha with rfl | ha'
    · rcases List.mem_cons.mp hb with heq | hb'
      · exact (congrArg Prod.snd heq).symm
      · exact absurd (List.mem_map.mpr ⟨(k, b), hb', rfl⟩) hnd.1
    · rcases List.mem_cons.mp hb with rfl | hb'
      · exact absurd (List.mem_map.mpr ⟨(k, a), ha', rfl⟩) hnd.1
      · exact ih hnd.2 ha' hb'

theorem mem_insertOrReplace (m : List (String × TicketContext)) (k : String)
    (v : TicketContext) {p : String × TicketContext}
    (hp : p ∈ insertOrReplace m k v) : p ∈ m ∨ p = (k, v) := by
  unfold insertOrReplace at hp
  by_cases h : m.any (fun q => q.1 = k)
  · rw [if_pos h] at hp
    obtain ⟨q, hq, hfq⟩ := List.mem_map.mp hp
    by_cases hk : q.1 = k
    · right; rw [if_pos hk] at hfq; exact hfq.symm
    · left; rw [if_neg hk] at hfq; exact hfq ▸ hq
  · rw [if_neg h] at hp
    rcases List.mem_append.mp hp with h1 | h1
    · exact Or.inl h1
    · exact Or.inr (List.mem_singleton.mp h1)

theorem ticket_contexts_of_speakers_eq (speakers : List (String × List String))
    (ts : List TicketMention) :
    ∀ acc, (∀ p ∈ acc, (p : String × TicketContext).2.speakers
              = ticketContextSpeakers p.1 speakers) →
    ∀ p ∈ ts.foldl (fun m t =>
        insertOrReplace m t.key
          { confidence := t.confidence, type := t.type,
            speakers := ticketContextSpeakers t.key speakers, mentions := [] }) acc,
      (p : String × TicketContext).2.speakers = ticketContextSpeakers p.1 speakers := by
  induction ts with
  | nil => exact fun acc hacc => hacc
  | cons t ts ih =>
    intro acc hacc
    rw [List.foldl_cons]
    apply ih
    intro p hp
    rcases mem_insertOrReplace _ _ _ hp with h | rfl
    · exact hacc p h
    · rfl

/-- C3: in the ticket-context aggregation of `parse_transcript`, a speaker
appears in a mention's `TicketContext` iff some utterance of that speaker is
relevant, where an utterance is relevant when it contains the literal ticket
key, or — by the whole-list fallback — when the key's numeric suffix occurs
in ANY line of that speaker's utterance list, in which case every utterance
of the speaker is classified relevant and the speaker's full list is kept. -/
theorem ticket_context_relevance
    (key : String) (speakers : List (String × List String)) (sp : String)
    (lines : List String)
    (hmem : (sp, lines) ∈ speakers)
    (hnd : (speakers.map (fun p => p.1)).Nodup) :
    ((∃ rl, (sp, rl) ∈ ticketContextSpeakers key speakers) ↔
       ∃ line ∈ lines, containsSub line key = true ∨
         ∃ l ∈ lines, containsSub l (keySuffix key) = true)
  ∧ ((∃ l ∈ lines, containsSub l (keySuffix key) = true) →
       (sp, lines) ∈ ticketContextSpeakers key speakers)
  ∧ ∀ (ts : List TicketMention) (k : String) (ctx : TicketContext),
      (k, ctx) ∈ ticket_contexts_of ts speakers →
      ctx.speakers = ticketContextSpeakers k speakers := by
  refine ⟨⟨?_, ?_⟩, ?_, ?_⟩
  · rintro ⟨rl, hrl⟩
    obtain ⟨p, hp, hfp⟩ := List.mem_filterMap.mp hrl
    simp only at hfp
    split at hfp
    · cases hfp
    · rename_i he
      rw [Option.some.injEq, Prod.mk.injEq] at hfp
      obtain ⟨hsp, hrl'⟩ := hfp
      have hlines : p.2 = lines := by
        apply nodup_keys_mem_unique speakers hnd ?_ hmem
        rw [← hsp]
        exact hp
      rw [hlines] at he
      have hne : relevant_lines key lines ≠ [] := fun hc => he (by rw [hc]; rfl)
      obtain ⟨x, hx⟩ := List.exists_mem_of_ne_nil _ hne
      have hx' := List.mem_filter.mp hx
      refine ⟨x, hx'.1, ?_⟩
      rcases Bool.or_eq_true _ _ |>.mp hx'.2 with h | h
      · exact Or.inl h
      · obtain ⟨l, hl, hcl⟩ := List.any_eq_true.mp h
        exact Or.inr ⟨l, hl, hcl⟩
  · rintro ⟨line, hline, hdisj⟩
    have hpred : (fun l => containsSub l key ||
        lines.any (fun l => containsSub l (keySuffix key))) line = true := by
      rcases hdisj with h | ⟨l, hl, hcl⟩
      · simp [h]
      · simp [List.any_eq_true]
        exact Or.inr ⟨l, hl, hcl⟩
    have hmemf : line ∈ relevant_lines key lines := List.mem_filter.mpr ⟨hline, hpred⟩
    have hne : ¬ (relevant_lines key lines).isEmpty := by
      cases hrl : relevant_lines key lines with
      | nil => rw [hrl] at hmemf; cases hmemf
      | cons a t => simp [hrl]
    refine ⟨relevant_lines key lines, List.mem_filterMap.mpr ⟨(sp, lines), hmem, ?_⟩⟩
    simp only [if_neg hne]
  · rintro ⟨l, hl, hcl⟩
    have hall : relevant_lines key lines = lines := by
      apply List.filter_eq_self.mpr
      intro a _
      simp [List.any_eq_true]
      exact Or.inr ⟨l, hl, hcl⟩
    have hne : ¬ (relevant_lines key lines).isEmpty := by
      rw [hall]
      cases lines with
      | nil => cases hl
      | cons a t => simp
    apply List.mem_filterMap.mpr
    exact ⟨(sp, lines), hmem, by simp only [if_neg hne]; rw [hall]⟩
  · intro ts k ctx hk
    exact ticket_contexts_of_speakers_eq speakers ts [] (by simp) (k, ctx) hk

theorem ticket_context_relevance_witness :
    ("Alice", ["Working on PROJ-42, almost done"]) ∈
      ticketContextSpeakers "PROJ-42"
        [("Alice", ["Working on PROJ-42, almost done"]),
         ("Bob", ["ticket 99 is blocked"])] :=
  (ticket_context_relevance "PROJ-42"
      [("Alice", ["Working on PROJ-42, almost done"]),
       ("Bob", ["ticket 99 is blocked"])]
      "Alice" ["Working on PROJ-42, almost done"] (by decide) (by decide)).2.1
    ⟨"Working on PROJ-42, almost done", by decide, by decide⟩

/-! ## Claim theorem for the Speaker Segmenter (C5) -/

theorem speakerMatch_none_of_not_line {l : String} (h : ¬ isSpeakerLine l = true) :
    speakerMatch l = none := by
  cases hsm : speakerMatch l with
  | none => rfl
  | some v => exact absurd (by simp [isSpeakerLine, hsm]) h

theorem psStep_none_none (m : List (String × List String)) {l : String}
    (h : speakerMatch l = none) : psStep (m, none) l = (m, none) := by
  simp only [psStep, h]

theorem appendAll_append (m : List (String × List String)) (name : String)
    (xs ys : List String) :
    appendAll m name (xs ++ ys) = appendAll (appendAll m name xs) name ys :=
  List.foldl_append ..

theorem psRun_none_skip (ls : List String) : ∀ m,
    ls.foldl psStep (m, none)
      = (ls.dropWhile (fun l => !isSpeakerLine l)).foldl psStep (m, none) := by
  induction ls with
  | nil => intro m; rfl
  | cons l ls ih =>
    intro m
    by_cases h : isSpeakerLine l
    · rw [List.dropWhile_cons, if_neg (by simp [h])]
    · rw [List.dropWhile_cons, if_pos (by simp [h]), List.foldl_cons,
        psStep_none_none m (speakerMatch_none_of_not_line h), ih]

theorem psRun_cont (ls : List String) : ∀ m cur,
    ls.foldl psStep (m, some cur)
      = (ls.dropWhile (fun l => !isSpeakerLine l)).foldl psStep
          (appendAll m cur (contBlock ls), some cur) := by
  induction ls with
  | nil => intro m cur; rfl
  | cons l ls ih =>
    intro m cur
    by_cases h : isSpeakerLine l
    · rw [List.dropWhile_cons, if_neg (by simp [h])]
      have ht : contBlock (l :: ls) = [] := by
        unfold contBlock
        rw [List.takeWhile_cons, if_neg (by simp [h])]
        rfl
      rw [ht]
      rfl
    · have hsm := speakerMatch_none_of_not_line h
      rw [List.dropWhile_cons, if_pos (by simp [h]), List.foldl_cons]
      have htake : contBlock (l :: ls) =
          (if pyStrip l ≠ "" then some (pyStrip l) else none).toList ++ contBlock ls := by
        unfold contBlock
        rw [List.takeWhile_cons, if_pos (by simp [h]), List.filterMap_cons]
        by_cases hb : pyStrip l ≠ ""
        · rw [if_pos hb]; rfl
        · rw [if_neg hb]; rfl
      by_cases hb : pyStrip l ≠ ""
      · have hstep : psStep (m, some cur) l = (appendTo m cur (pyStrip l), some cur) := by
          simp only [psStep, hsm]
          exact if_pos hb
        rw [hstep, ih, htake, if_pos hb, appendAll_append]
        rfl
      · have hstep : psStep (m, some cur) l = (m, some cur) := by
          simp only [psStep, hsm]
          exact if_neg hb
        rw [hstep, ih, htake, if_neg hb]
        rfl

theorem dropWhile_head_cases (ls : List String) :
    (ls.dropWhile (fun l => !isSpeakerLine l)) = [] ∨
    ∃ l rest, ls.dropWhile (fun l => !isSpeakerLine l) = l :: rest ∧ isSpeakerLine l := by
  induction ls with
  | nil => exact Or.inl rfl
  | cons l ls ih =>
    by_cases h : isSpeakerLine l
    · exact Or.inr ⟨l, ls, by rw [List.dropWhile_cons, if_neg (by simp [h])], h⟩
    · rw [List.dropWhile_cons, if_pos (by simp [h])]
      exact ih

theorem segBlocks_nil : segBlocks [] = [] := by rw [segBlocks]

theorem segBlocks_cons_speaker {l : String} {name content : String}
    (hsm : speakerMatch l = some (name, content)) (ls : List String) :
    segBlocks (l :: ls) =
      (name, (if content ≠ "" then [content] else []) ++ contBlock ls)
        :: segBlocks (ls.dropWhile (fun x => !isSpeakerLine x)) := by
  rw [segBlocks]
  simp only [hsm]

theorem segBlocks_cons_none {l : String} (hsm : speakerMatch l = none)
    (ls : List String) : segBlocks (l :: ls) = segBlocks ls := by
  rw [segBlocks]
  simp only [hsm]

theorem segBlocks_dropWhile (ls : List String) :
    segBlocks ls = segBlocks (ls.dropWhile (fun l => !isSpeakerLine l)) := by
  induction ls with
  | nil => rfl
  | cons l ls ih =>
    by_cases h : isSpeakerLine l
    · rw [List.dropWhile_cons, if_neg (by simp [h])]
    · rw [List.dropWhile_cons, if_pos (by simp [h]),
        segBlocks_cons_none (speakerMatch_none_of_not_line h), ih]

theorem psRun_merge (n : Nat) : ∀ ls : List String, ls.length ≤ n →
    (ls = [] ∨ ∃ l rest, ls = l :: rest ∧ isSpeakerLine l = true) →
    ∀ m cur, (ls.foldl psStep (m, cur)).1 = mergeBlocks (segBlocks ls) m := by
  induction n with
  | zero =>
    intro ls hlen hhead m cur
    rcases hhead with rfl | ⟨l, rest, rfl, _⟩
    · rw [segBlocks_nil]; rfl
    · simp at hlen
  | succ n ih =>
    intro ls hlen hhead m cur
    rcases hhead with rfl | ⟨l, rest, rfl, hl⟩
    · rw [segBlocks_nil]; rfl
    · cases hsm : speakerMatch l with
      | none =>
        unfold isSpeakerLine at hl
        rw [hsm] at hl
        simp at hl
      | some nc =>
        obtain ⟨name, content⟩ := nc
        have hstep : psStep (m, cur) l =
            ((if content ≠ "" then appendTo (registerSpeaker m name) name content
              else registerSpeaker m name), some name) := by
          simp only [psStep, hsm]
        rw [List.foldl_cons, hstep, psRun_cont,
          ih (rest.dropWhile (fun x => !isSpeakerLine x))
            (le_trans (length_dropWhile_le' _ _) (by simpa using hlen))
            (dropWhile_head_cases rest) _ (some name),
          segBlocks_cons_speaker hsm]
        show mergeBlocks _ _ = mergeBlocks _ _
        unfold mergeBlocks
        rw [List.foldl_cons]
        congr 1
        show appendAll _ name (contBlock rest)
          = appendAll (registerSpeaker m name) name (_ ++ contBlock rest)
        rw [appendAll_append]
        congr 1
        by_cases hc : content ≠ ""
        · rw [if_pos hc, if_pos hc]
          rfl
        · rw [if_neg hc, if_neg hc]
          rfl

/-- C5: `parse_speakers` maps each speaker introduced by a `Name: rest`
line to that line's non-empty rest followed by the trimmed non-blank
continuation lines up to the next speaker line (blocks of a repeated
speaker concatenate); blank lines, and non-blank lines seen before any
speaker line, are discarded — `parse_speakers` coincides with the
declarative `segment`, and the concrete example holds. -/
theorem parse_speakers_correct :
    (∀ text, parse_speakers text = segment text)
  ∧ parse_speakers "Alice: fixed the bug\nstill testing\nBob: reviewed PR"
      = [("Alice", ["fixed the bug", "still testing"]), ("Bob", ["reviewed PR"])] := by
  constructor
  · intro text
    unfold parse_speakers segment
    rw [psRun_none_skip, segBlocks_dropWhile,
      psRun_merge ((pySplit text '\n').dropWhile (fun l => !isSpeakerLine l)).length _
        le_rfl (dropWhile_head_cases _) [] none]
  · decide

/-! ## Claim theorem for the Date Resolver (C6) -/

/-- C6: the "standup/meeting for/on <day> <month>" pattern is tried before
the "<day> <full-month-name> <year>" pattern; the first pattern whose
captured substring parses wins, a parse failure falls through to the next
pattern, and when no pattern matches or all parses fail the resolver
returns `none` and `parse_transcript` formats the caller-supplied current
Sydney-timezone date.  "Standup for 27 Oct 2025" resolves to 27 Oct 2025
for any current year. -/
theorem date_resolution_order :
    (∀ text nowYear cap d, searchP1 text.toList = some cap →
       dateutil_parse nowYear (String.mk cap) = some d →
       extract_date_from_transcript text nowYear = some d)
  ∧ (∀ text nowYear cap, searchP1 text.toList = some cap →
       dateutil_parse nowYear (String.mk cap) = none →
       extract_date_from_transcript text nowYear
         = (searchP2 text.toList).bind (fun c => dateutil_parse nowYear (String.mk c)))
  ∧ (∀ text nowYear, searchP1 text.toList = none →
       extract_date_from_transcript text nowYear
         = (searchP2 text.toList).bind (fun c => dateutil_parse nowYear (String.mk c)))
  ∧ (∀ text dp now, extract_date_from_transcript text now.year = none →
       (parse_transcript text dp now).date = strftimeDBY now)
  ∧ extract_date_from_transcript "Standup for 27 Oct 2025" 2024
      = some { day := 27, month := 10, year := 2025 } := by
  refine ⟨?_, ?_, ?_, ?_, by decide⟩
  · intro text nowYear cap d h1 h2
    unfold extract_date_from_transcript
    rw [h1]
    dsimp only
    rw [h2]
  · intro text nowYear cap h1 h2
    unfold extract_date_from_transcript
    rw [h1]
    dsimp only
    rw [h2]
  · intro text nowYear h1
    unfold extract_date_from_transcript
    rw [h1]
  · intro text dp now h
    unfold parse_transcript
    rw [h]
    rfl

theorem date_resolution_order_witness :
    extract_date_from_transcript "Standup for 27 Oct 2025" 2024
      = some { day := 27, month := 10, year := 2025 }
  ∧ extract_date_from_transcript "meeting on 99 Octx 2026 and 5 January 2026" 2024
      = (searchP2 "meeting on 99 Octx 2026 and 5 January 2026".toList).bind
          (fun c => dateutil_parse 2024 (String.mk c))
  ∧ extract_date_from_transcript "no date here" 2024
      = (searchP2 "no date here".toList).bind (fun c => dateutil_parse 2024 (String.mk c))
  ∧ (parse_transcript "no date here" "WJR" { day := 11, month := 10, year := 2025 }).date
      = strftimeDBY { day := 11, month := 10, year := 2025 } :=
  ⟨date_resolution_order.1 "Standup for 27 Oct 2025" 2024 "27 Oct 2025".toList
      { day := 27, month := 10, year := 2025 } (by decide) (by decide),
   date_resolution_order.2.1 "meeting on 99 Octx 2026 and 5 January 2026" 2024
      "99 Octx 2026".toList (by decide) (by decide),
   date_resolution_order.2.2.1 "no date here" 2024 (by decide),
   date_resolution_order.2.2.2.1 "no date here" "WJR"
      { day := 11, month := 10, year := 2025 } (by decide)⟩

/-! ## Claim theorem for the tri-state result contract (C7) -/

def statuses : List String := ["success", "pending", "error"]

theorem fetch_body_status (env : GoogleEnv) (b : Bool) :
    ∀ r, fetch_calendar_events_body env b = .ok r → r.status ∈ statuses := by
  intro r
  unfold fetch_calendar_events_body
  repeat' split
  all_goals intro h
  all_goals cases h
  all_goals simp [statuses]

theorem notes_body_status (env : GoogleEnv) (eid : String) :
    ∀ r, get_meeting_notes_body env eid = .ok r → r.status ∈ statuses := by
  intro r
  unfold get_meeting_notes_body
  repeat' split
  all_goals intro h
  all_goals cases h
  all_goals simp [statuses]

theorem validate_body_status (env : JiraEnv) (keys : List String) (st : JState) :
    ∀ r, validate_jira_tickets_body env keys st = .ok r → r.status ∈ statuses := by
  intro r
  unfold validate_jira_tickets_body
  repeat' split
  all_goals intro h
  all_goals cases h
  all_goals simp [statuses]

theorem post_body_status (env : JiraEnv) (tk : String) (st : JState) :
    ∀ r, post_jira_comment_body env tk st = .ok r → r.status ∈ statuses := by
  intro r
  unfold post_jira_comment_body
  repeat' split
  all_goals intro h
  all_goals cases h
  all_goals simp [statuses]

/-- C7: every public operation returns a result whose status is exactly one
of success/pending/error for every input; a raised exception (an `.error`
outcome of the body) is converted at the boundary to an error-status result
carrying the message; and a missing credential (auth returning no services /
no token) yields a pending status, not an error. -/
theorem tri_state_contract :
    (∀ env b, (fetch_calendar_events env b).status ∈ statuses)
  ∧ (∀ env eid, (get_meeting_notes env eid).status ∈ statuses)
  ∧ (∀ text dp now, (parse_transcript text dp now).status ∈ statuses)
  ∧ (∀ env keys st, (validate_jira_tickets env keys st).status ∈ statuses)
  ∧ (∀ tk ctx ds info, (generate_jira_comment tk ctx ds info).status ∈ statuses)
  ∧ (∀ env tk st, (post_jira_comment env tk st).status ∈ statuses)
  ∧ (∀ text dp now, (process_manual_transcript text dp now).status ∈ statuses)
  ∧ (∀ env b e, fetch_calendar_events_body env b = .error e →
       fetch_calendar_events env b = { status := "error", error_message := some e })
  ∧ (∀ env eid e, get_meeting_notes_body env eid = .error e →
       get_meeting_notes env eid = { status := "error", error_message := some e })
  ∧ (∀ env keys st e, validate_jira_tickets_body env keys st = .error e →
       validate_jira_tickets env keys st = { status := "error", error_message := some e })
  ∧ (∀ env tk st e, post_jira_comment_body env tk st = .error e →
       post_jira_comment env tk st = { status := "error", error_message := some e })
  ∧ (∀ env b, env.services = .ok false →
       (fetch_calendar_events env b).status = "pending")
  ∧ (∀ env eid, env.services = .ok false →
       (get_meeting_notes env eid).status = "pending")
  ∧ (∀ env keys st, truthy (lookupState st JIRA_TOKEN_CACHE_KEY) = false →
       env.exchange = .ok none → (validate_jira_tickets env keys st).status = "pending")
  ∧ (∀ env tk st, truthy (lookupState st JIRA_TOKEN_CACHE_KEY) = false →
       env.exchange = .ok none → (post_jira_comment env tk st).status = "pending") := by
  refine ⟨?_, ?_, ?_, ?_, ?_, ?_, ?_, ?_, ?_, ?_, ?_, ?_, ?_, ?_, ?_⟩
  · intro env b
    unfold fetch_calendar_events
    cases hb : fetch_calendar_events_body env b with
    | error e => simp [statuses]
    | ok r => simpa using fetch_body_status env b r hb
  · intro env eid
    unfold get_meeting_notes
    cases hb : get_meeting_notes_body env eid with
    | error e => simp [statuses]
    | ok r => simpa using notes_body_status env eid r hb
  · intro text dp now
    simp [parse_transcript, statuses]
  · intro env keys st
    unfold validate_jira_tickets
    cases hb : validate_jira_tickets_body env keys st with
    | error e => simp [statuses]
    | ok r => simpa using validate_body_status env keys st r hb
  · intro tk ctx ds info
    unfold generate_jira_comment
    cases info <;> simp [statuses]
  · intro env tk st
    unfold post_jira_comment
    cases hb : post_jira_comment_body env tk st with
    | error e => simp [statuses]
    | ok r => simpa using post_body_status env tk st r hb
  · intro text dp now
    simp [process_manual_transcript, parse_transcript, statuses]
  · intro env b e h
    unfold fetch_calendar_events
    rw [h]
  · intro env eid e h
    unfold get_meeting_notes
    rw [h]
  · intro env keys st e h
    unfold validate_jira_tickets
    rw [h]
  · intro env tk st e h
    unfold post_jira_comment
    rw [h]
  · intro env b hs
    unfold fetch_calendar_events fetch_calendar_events_body
    rw [hs]
  · intro env eid hs
    unfold get_meeting_notes get_meeting_notes_body
    rw [hs]
  · intro env keys st ht hx
    unfold validate_jira_tickets validate_jira_tickets_body get_jira_auth
    simp [ht, hx]
  · intro env tk st ht hx
    unfold post_jira_comment post_jira_comment_body get_jira_auth
    simp [ht, hx]

/-- A concrete Google-side environment whose auth reports "no credential". -/
def pendingGoogleEnv : GoogleEnv :=
  { services := .ok false, eventsList := .ok [], getEvent := fun _ => .error "no event",
    notes := fun _ => none, readDoc := fun _ => "" }

/-- A concrete Jira-side environment whose exchange yields no credential. -/
def pendingJiraEnv : JiraEnv :=
  { exchange := .ok none, fetchCloud := .ok none, issue := fun _ => .error "net",
    post := .ok (500, "oops") }

theorem tri_state_contract_witness :
    fetch_calendar_events { pendingGoogleEnv with services := Except.error "boom" } true
      = { status := "error", error_message := some "boom" }
  ∧ (fetch_calendar_events pendingGoogleEnv true).status = "pending"
  ∧ (get_meeting_notes pendingGoogleEnv "e1").status = "pending"
  ∧ (validate_jira_tickets pendingJiraEnv ["AB-1"] []).status = "pending"
  ∧ (post_jira_comment pendingJiraEnv "AB-1" []).status = "pending"
  ∧ (parse_transcript "x" "WJR" { day := 1, month := 1, year := 2025 }).status ∈ statuses
  ∧ (generate_jira_comment "AB-1"
      { confidence := "high", type := "full_key", speakers := [], mentions := [] }
      "01 Jan 2025" none).status ∈ statuses := by
  obtain ⟨h1, h2, h3, h4, h5, h6, h7, h8, h9, h10, h11, h12, h13, h14, h15⟩ :=
    tri_state_contract
  exact ⟨h8 _ true "boom" rfl, h12 pendingGoogleEnv true rfl, h13 pendingGoogleEnv "e1" rfl,
         h14 pendingJiraEnv ["AB-1"] [] rfl rfl, h15 pendingJiraEnv "AB-1" [] rfl rfl,
         h3 "x" "WJR" { day := 1, month := 1, year := 2025 },
         h5 "AB-1" { confidence := "high", type := "full_key", speakers := [], mentions := [] }
           "01 Jan 2025" none⟩

theorem spoken_digits_tier_conditions_witness :
    ∃ pre Δ, extract_ticket_keys "issue four five six" "WJR" = pre ++ Δ
      ∧ (∀ m ∈ pre, m.type ≠ "spoken_digits")
      ∧ ∀ m ∈ Δ, m.type = "spoken_digits" ∧ m.confidence = "low"
          ∧ (∃ ds, 3 ≤ ds.length ∧ m.key = "WJR" ++ "-" ++ ds)
          ∧ m.key ∉ pre.map (fun t => t.key) :=
  spoken_digits_tier_conditions.1 "issue four five six" "WJR"

/-! ## Claim theorems for the Credential Cache (C8) -/

theorem lookupState_setState_self (st : JState) (k v : String) :
    lookupState (setState st k v) k = some v := by
  induction st with
  | nil => simp [setState, lookupState]
  | cons p t ih =>
    by_cases h : p.1 = k
    · simp [setState, lookupState, h]
    · simp [setState, lookupState, h, ih]

/-- C8 counterexample: the cloud identifier is NOT fetched at most once per
session — a failed fetch (non-200 or empty resources, modelled `.ok none`)
is not cached, so a second call in the same session fetches again: two
fetches in one session. -/
theorem cloud_id_refetch_counterexample :
    ∃ r1 r2 : CloudResult,
      get_jira_cloud_id (Except.ok none) [] = Except.ok r1
      ∧ get_jira_cloud_id (Except.ok none) r1.state = Except.ok r2
      ∧ r1.fetches + r2.fetches = 2 ∧ ¬ (2 ≤ 1) :=
  ⟨{ cloudId := none, state := [], fetches := 1 },
   { cloudId := none, state := [], fetches := 1 }, rfl, rfl, rfl, by decide⟩

/-- C8 (amended): a non-empty cached token is returned without invoking the
OAuth exchange path (neither `get_auth_response` nor `request_credential`
runs and the state is untouched); a non-empty cached cloud id is returned
with no provider fetch; and once a fetch succeeds the id is cached under
its separate key, so a subsequent call performs no fetch — but a failed
fetch is not cached and a later call fetches again. -/
theorem credential_cache_behavior :
    (∀ exchange st tok, lookupState st JIRA_TOKEN_CACHE_KEY = some tok → tok ≠ "" →
       get_jira_auth exchange st
         = .ok { token := some tok, state := st, exchanged := false, requested := false })
  ∧ (∀ fetch st cid, lookupState st JIRA_CLOUD_ID_KEY = some cid → cid ≠ "" →
       get_jira_cloud_id fetch st = .ok { cloudId := some cid, state := st, fetches := 0 })
  ∧ (∀ st cid fetch2, cid ≠ "" → truthy (lookupState st JIRA_CLOUD_ID_KEY) = false →
       get_jira_cloud_id (.ok (some cid)) st
         = .ok { cloudId := some cid, state := setState st JIRA_CLOUD_ID_KEY cid, fetches := 1 }
       ∧ get_jira_cloud_id fetch2 (setState st JIRA_CLOUD_ID_KEY cid)
         = .ok { cloudId := some cid, state := setState st JIRA_CLOUD_ID_KEY cid,
                 fetches := 0 }) := by
  refine ⟨?_, ?_, ?_⟩
  · intro exchange st tok h ht
    unfold get_jira_auth
    simp [h, truthy, ht]
  · intro fetch st cid h hc
    unfold get_jira_cloud_id
    simp [h, truthy, hc]
  · intro st cid fetch2 hcid ht
    constructor
    · unfold get_jira_cloud_id
      simp [ht]
    · unfold get_jira_cloud_id
      simp [lookupState_setState_self, truthy, hcid]

theorem credential_cache_behavior_witness :
    get_jira_auth (Except.error "exchange must not run") [(JIRA_TOKEN_CACHE_KEY, "tok")]
      = .ok { token := some "tok", state := [(JIRA_TOKEN_CACHE_KEY, "tok")],
              exchanged := false, requested := false }
  ∧ get_jira_cloud_id (Except.error "fetch must not run") [(JIRA_CLOUD_ID_KEY, "cid")]
      = .ok { cloudId := some "cid", state := [(JIRA_CLOUD_ID_KEY, "cid")], fetches := 0 }
  ∧ get_jira_cloud_id (Except.ok none) (setState [] JIRA_CLOUD_ID_KEY "cid")
      = .ok { cloudId := some "cid", state := setState [] JIRA_CLOUD_ID_KEY "cid",
              fetches := 0 } := by
  obtain ⟨h1, h2, h3⟩ := credential_cache_behavior
  exact ⟨h1 _ _ "tok" (by decide) (by decide), h2 _ _ "cid" (by decide) (by decide),
         (h3 [] "cid" (Except.ok none) (by decide) (by decide)).2⟩

/-! ## Claim theorems for the Comment Formatter (C9) -/

theorem adf_blocks_foldl (sd : List (String × List String)) :
    ∀ acc, sd.foldl (fun acc p => acc ++ [adfHeading p.1, adfBulletList p.2]) acc
      = acc ++ (sd.map (fun p => [adfHeading p.1, adfBulletList p.2])).flatten := by
  induction sd with
  | nil => intro acc; simp
  | cons p t ih =>
    intro acc
    rw [List.foldl_cons, ih, List.map_cons, List.flatten_cons, List.append_assoc]

theorem adfHeaderText_ne_footer (d : String) : adfHeaderText d ≠ adfFooterText := by
  intro h
  have h2 : (adfHeaderText d).data.head? = adfFooterText.data.head? := by rw [h]
  have h3 : (adfHeaderText d).data.head? = some 'S' := rfl
  have h4 : adfFooterText.data.head? = some 'G' := rfl
  rw [h3, h4] at h2
  cases h2

/-- C9 counterexample: the disclaimer footer does NOT always occur exactly
once in the concatenated text — an utterance consisting of the footer text
itself makes the footer occur twice. -/
theorem adf_footer_not_always_once :
    countSub ((generate_adf_comment "1 Jan 2025"
        [("Alice", [adfFooterText])]).textConcat) adfFooterText = 2
    ∧ (2 : Nat) ≠ 1 := by
  constructor
  · decide
  · decide

/-- C9 (amended): the comment is one heading plus one bullet list per
speaker, in mapping order, between the header paragraph and the italic
footer paragraph; for a context with exactly one speaker and one utterance
the concatenated text contains that utterance verbatim and ends with the
fixed disclaimer footer, and when neither the speaker name nor the
utterance is itself the footer text the footer occurs exactly once among
the comment's text nodes. -/
theorem adf_comment_structure :
    (∀ date_str sd, generate_adf_comment date_str sd
       = .node "doc" [("version", 1)]
           (.node "paragraph" [] [.text (adfHeaderText date_str) ["strong"]]
             :: (sd.map (fun p => [adfHeading p.1, adfBulletList p.2])).flatten
             ++ [adfFooter]))
  ∧ (∀ date_str sp u,
       (generate_adf_comment date_str [(sp, [u])]).textNodes
         = [adfHeaderText date_str, sp, u, adfFooterText]
       ∧ (∃ a b, (generate_adf_comment date_str [(sp, [u])]).textConcat = a ++ u ++ b)
       ∧ (∃ a, (generate_adf_comment date_str [(sp, [u])]).textConcat
            = a ++ adfFooterText)
       ∧ (sp ≠ adfFooterText → u ≠ adfFooterText →
            ((generate_adf_comment date_str [(sp, [u])]).textNodes).count adfFooterText
              = 1)) := by
  constructor
  · intro date_str sd
    unfold generate_adf_comment
    rw [adf_blocks_foldl sd []]
    rfl
  · intro date_str sp u
    refine ⟨rfl, ⟨"" ++ adfHeaderText date_str ++ sp, adfFooterText, rfl⟩,
      ⟨"" ++ adfHeaderText date_str ++ sp ++ u, rfl⟩, ?_⟩
    intro hsp hu
    have hlist : (generate_adf_comment date_str [(sp, [u])]).textNodes
        = [adfHeaderText date_str, sp, u, adfFooterText] := rfl
    rw [hlist]
    simp [List.count_cons, hsp, hu, adfHeaderText_ne_footer date_str]

theorem adf_comment_structure_witness :
    ((generate_adf_comment "27 Oct 2025" [("Alice", ["did a thing"])]).textNodes).count
      adfFooterText = 1 :=
  (adf_comment_structure.2 "27 Oct 2025" "Alice" "did a thing").2.2.2
    (by decide) (by decide)

end Standup
